import Mathlib

/-!
Verification of the tinky-unordered-list package core: the depth-indexed
marker-resolution rule of `src/components/UnorderedList.tsx` together with
the two ambient-value channels (list depth, resolved marker) established by
`UnorderedListContext` and `UnorderedListItemContext`.

The embedding translates:
  * `defaultMarker` (themes/unordered-list-theme.tsx line 100,
    `figures.line`, the box drawing character) as a string constant;
  * the runtime shape of `resolvedConfig?.marker` (a value typed
    `string | string[] | undefined`, but at runtime possibly anything) as
    the inductive `MarkerConfig`;
  * the marker-resolution expression of UnorderedList.tsx lines 153-171
    (`typeof marker === "string"` / `Array.isArray(marker)` /
    `marker[depth] ?? marker.at(-1) ?? defaultMarker` / `defaultMarker`)
    as `resolveMarker`, with the trailing process-wide constant of the
    fallback chain abstracted as the `fallback` argument;
    `resolveMarkerDefault` fixes it to `defaultMarker` exactly as the
    source does;
  * the render tree (lists, items, and context-transparent host nodes) as
    the mutual inductive `Node`/`NodeList`, and a render pass threading the
    two context values as `renderNode`/`renderNodes`, producing `RNode`
    trees that record, for each list, the ambient depth it observed and
    the marker it broadcast, and for each item, the marker it observed.
-/

/-- The process-wide default marker: `figures.line`, the box drawing
character, exported as `defaultMarker` from the theme module. -/
def defaultMarker : String := "─"

/-- Runtime shape of the value read from `resolvedConfig?.marker`.
`str` and `arr` are the two accepted shapes; `undef` is an absent
configuration (missing theme config or missing `marker` field);
`malformed` is any other runtime value (neither a string nor an array),
which the source code distinguishes from `undef` in no way. -/
inductive MarkerConfig : Type where
  | str : String → MarkerConfig
  | arr : List String → MarkerConfig
  | undef : MarkerConfig
  | malformed : MarkerConfig
deriving DecidableEq

/-- Marker resolution, translated from UnorderedList.tsx lines 153-171:
a string config is returned unconditionally; for an array config the
source computes `marker[depth] ?? marker.at(-1) ?? defaultMarker`
(out-of-range indexing yields `undefined`, `.at(-1)` is the last element
or `undefined` on an empty array, and `??` skips only null/undefined);
any other shape yields `defaultMarker`. The process-wide constant ending
the chain is the `fallback` argument here. -/
def resolveMarker (depth : Nat) (cfg : MarkerConfig) (fallback : String) : String :=
  match cfg with
  | .str s => s
  | .arr xs =>
      match xs[depth]? with
      | some s => s
      | none =>
          match xs.getLast? with
          | some s => s
          | none => fallback
  | .undef => fallback
  | .malformed => fallback

/-- Marker resolution as the source actually invokes it, with the
process-wide `defaultMarker` ending the fallback chain. -/
def resolveMarkerDefault (depth : Nat) (cfg : MarkerConfig) : String :=
  resolveMarker depth cfg defaultMarker

/-- The strings a configuration can possibly supply: the single string,
or the elements of the array; an absent or malformed configuration
supplies none. -/
def configStrings : MarkerConfig → List String
  | .str s => [s]
  | .arr xs => xs
  | .undef => []
  | .malformed => []

/-- Claim C3: for every non-empty sequence-of-strings configuration `S`,
every fallback string, and every depth `d` with `0 ≤ d < len(S)`, marker
resolution returns `S[d]`, the element of `S` at index `d`. -/
theorem resolve_in_range (S : List String) (fallback : String) (d : Nat)
    (h : d < S.length) :
    resolveMarker d (.arr S) fallback = S.get ⟨d, h⟩ := by
  simp [resolveMarker, List.getElem?_eq_getElem h]

/-- Witness for C3 at `S = ["a", "b", "c"]`, `d = 1`. -/
theorem resolve_in_range_witness :
    1 < (["a", "b", "c"] : List String).length ∧
      resolveMarker 1 (.arr ["a", "b", "c"]) "f" = "b" :=
  ⟨by decide, resolve_in_range ["a", "b", "c"] "f" 1 (by decide)⟩

/-- Claim C4: for every non-empty sequence-of-strings configuration `S`,
every fallback string, and every depth `d ≥ len(S)`, marker resolution
saturates and returns the last element of `S`. -/
theorem resolve_saturates (S : List String) (fallback : String) (d : Nat)
    (hne : S ≠ []) (h : S.length ≤ d) :
    resolveMarker d (.arr S) fallback = S.getLast hne := by
  have hnone : S[d]? = none := by
    simp [List.getElem?_eq_none_iff]
    omega
  simp [resolveMarker, hnone, List.getLast?_eq_getLast_of_ne_nil hne]

/-- Witness for C4 at `S = ["a", "b"]`, `d = 5`. -/
theorem resolve_saturates_witness :
    (["a", "b"] : List String) ≠ [] ∧
      (["a", "b"] : List String).length ≤ 5 ∧
      resolveMarker 5 (.arr ["a", "b"]) "f" = ["a", "b"].getLast (by decide) :=
  ⟨by decide, by decide, resolve_saturates ["a", "b"] "f" 5 (by decide) (by decide)⟩

/-- Claim C5: for every depth, every fallback string, and every
single-string configuration `m`, marker resolution returns `m`
unconditionally; the depth is ignored. -/
theorem resolve_single_string (d : Nat) (fallback m : String) :
    resolveMarker d (.str m) fallback = m := rfl

/-- Claim C6: for every depth, an empty-sequence configuration, an
absent configuration, and a malformed configuration (neither accepted
shape) all resolve to the process-wide default marker. -/
theorem resolve_fallback_cases (d : Nat) :
    resolveMarker d (.arr []) defaultMarker = defaultMarker ∧
      resolveMarker d .undef defaultMarker = defaultMarker ∧
      resolveMarker d .malformed defaultMarker = defaultMarker := by
  refine ⟨?_, rfl, rfl⟩
  simp [resolveMarker]

/-- Claim C8: marker resolution is total: for every depth and every
configuration of any shape, it returns a defined string, and that string
is drawn from the configuration itself or is the fallback — never a
failure. -/
theorem resolve_total (d : Nat) (cfg : MarkerConfig) (fallback : String) :
    resolveMarker d cfg fallback ∈ configStrings cfg ++ [fallback] := by
  cases cfg with
  | str s => simp [resolveMarker, configStrings]
  | arr xs =>
      simp only [resolveMarker, configStrings]
      cases hidx : xs[d]? with
      | some s =>
          have := List.getElem?_mem hidx
          simp [this]
      | none =>
          cases hlast : xs.getLast? with
          | some s =>
              obtain ⟨hne, rfl⟩ :=
                List.mem_getLast?_eq_getLast (Option.mem_def.2 hlast)
              simp [List.getLast_mem hne]
          | none => simp
  | undef => simp [resolveMarker, configStrings]
  | malformed => simp [resolveMarker, configStrings]

/-- Claim C10: an empty string stored at the current depth index of a
sequence configuration is returned as-is: the fallback chain skips only
missing values, so `""` is a usable marker and triggers neither the
last-element nor the default-marker fallback. -/
theorem resolve_empty_string_marker (S : List String) (fallback : String) (d : Nat)
    (h : d < S.length) (he : S.get ⟨d, h⟩ = "") :
    resolveMarker d (.arr S) fallback = "" := by
  rw [resolve_in_range S fallback d h, he]

/-- Witness for C10 at `S = ["a", "", "b"]`, `d = 1`: the result is the
empty string, not the last element `"b"` and not the default marker. -/
theorem resolve_empty_string_marker_witness :
    1 < (["a", "", "b"] : List String).length ∧
      resolveMarker 1 (.arr ["a", "", "b"]) defaultMarker = "" :=
  ⟨by decide, resolve_empty_string_marker ["a", "", "b"] defaultMarker 1
    (by decide) (by decide)⟩

mutual

/-- A render tree. `item` is `UnorderedListItem` with its content;
`list` is `UnorderedList` with its children; `plain` is any other host
element, which neither reads nor establishes context and merely lets the
ambient values pass through to its children. -/
inductive Node : Type where
  | item : NodeList → Node
  | list : NodeList → Node
  | plain : NodeList → Node

/-- A sequence of sibling render-tree nodes. -/
inductive NodeList : Type where
  | nil : NodeList
  | cons : Node → NodeList → NodeList

end

/-- Concatenation of sibling sequences. -/
def NodeList.append : NodeList → NodeList → NodeList
  | .nil, ys => ys
  | .cons x xs, ys => .cons x (NodeList.append xs ys)

/-- The two ambient context values a node observes:
`depth` from `UnorderedListContext` and `marker` from
`UnorderedListItemContext`. -/
structure Ctx where
  depth : Nat
  marker : String

/-- The context at the root of a render tree, where no ancestor list has
established either value: the `createContext` defaults, `depth: 0` and
`marker: defaultMarker`. -/
def rootCtx : Ctx := { depth := 0, marker := defaultMarker }

mutual

/-- The result of one render pass. A rendered `list` records the ambient
depth it observed and the marker it resolved and broadcast; a rendered
`item` records the marker it observed. -/
inductive RNode : Type where
  | item : String → RNodeList → RNode
  | list : Nat → String → RNodeList → RNode
  | plain : RNodeList → RNode

/-- A sequence of rendered sibling nodes. -/
inductive RNodeList : Type where
  | nil : RNodeList
  | cons : RNode → RNodeList → RNodeList

end

mutual

/-- One render pass of a node under ambient context `ctx` with the theme
marker configuration `cfg` in scope, translated from the two components:
an `UnorderedListItem` reads `marker` from `UnorderedListItemContext`
(UnorderedListItem.tsx lines 110-127); an `UnorderedList` reads `depth`
from `UnorderedListContext`, provides `depth + 1` on that context and the
marker resolved at the pre-increment `depth` on the item context to its
whole subtree (UnorderedList.tsx lines 137-179); any other element passes
both contexts through. -/
def renderNode (cfg : MarkerConfig) (ctx : Ctx) : Node → RNode
  | .item cs => .item ctx.marker (renderNodes cfg ctx cs)
  | .list cs =>
      .list ctx.depth (resolveMarkerDefault ctx.depth cfg)
        (renderNodes cfg
          { depth := ctx.depth + 1, marker := resolveMarkerDefault ctx.depth cfg }
          cs)
  | .plain cs => .plain (renderNodes cfg ctx cs)

/-- Render a sequence of siblings; each sibling is rendered under the
same ambient context, independently of the others. -/
def renderNodes (cfg : MarkerConfig) (ctx : Ctx) : NodeList → RNodeList
  | .nil => .nil
  | .cons n ns => .cons (renderNode cfg ctx n) (renderNodes cfg ctx ns)

end

mutual

/-- Collect, from a rendered tree, one pair per rendered list: its
nesting level (the number of enclosing lists, `level` at the root of the
traversal) and the ambient depth it observed. -/
def listDepthPairs (level : Nat) : RNode → List (Nat × Nat)
  | .item _ cs => listDepthPairsList level cs
  | .list d _ cs => (level, d) :: listDepthPairsList (level + 1) cs
  | .plain cs => listDepthPairsList level cs

/-- Collect nesting-level/observed-depth pairs from rendered siblings. -/
def listDepthPairsList (level : Nat) : RNodeList → List (Nat × Nat)
  | .nil => []
  | .cons c cs => listDepthPairs level c ++ listDepthPairsList level cs

end

mutual

theorem listDepthPairs_shift (cfg : MarkerConfig) (ctx : Ctx) (level : Nat) :
    ∀ (t : Node), ∀ p ∈ listDepthPairs level (renderNode cfg ctx t),
      p.2 + level = ctx.depth + p.1
  | .item cs => by
      simpa [renderNode, listDepthPairs] using
        listDepthPairsList_shift cfg ctx level cs
  | .list cs => by
      intro p hp
      simp only [renderNode, listDepthPairs, List.mem_cons] at hp
      rcases hp with h | h
      · subst h; omega
      · have := listDepthPairsList_shift cfg
          { depth := ctx.depth + 1, marker := resolveMarkerDefault ctx.depth cfg }
          (level + 1) cs p h
        simp only at this
        omega
  | .plain cs => by
      simpa [renderNode, listDepthPairs] using
        listDepthPairsList_shift cfg ctx level cs

theorem listDepthPairsList_shift (cfg : MarkerConfig) (ctx : Ctx) (level : Nat) :
    ∀ (ts : NodeList), ∀ p ∈ listDepthPairsList level (renderNodes cfg ctx ts),
      p.2 + level = ctx.depth + p.1
  | .nil => by simp [renderNodes, listDepthPairsList]
  | .cons t ts => by
      intro p hp
      simp only [renderNodes, listDepthPairsList, List.mem_append] at hp
      rcases hp with h | h
      · exact listDepthPairs_shift cfg ctx level t p h
      · exact listDepthPairsList_shift cfg ctx level ts p h

end

/-- Claim C1: in every render tree rendered from the root context (where
no ancestor list has established a depth), every list observes an
ambient depth equal to its nesting level exactly: each list exposes its
observed depth plus one to the lists nested below it with no intervening
list. -/
theorem depth_equals_nesting_level (cfg : MarkerConfig) (t : Node) :
    ∀ p ∈ listDepthPairs 0 (renderNode cfg rootCtx t), p.2 = p.1 := by
  intro p hp
  have := listDepthPairs_shift cfg rootCtx 0 t p hp
  simp only [rootCtx] at this
  omega

/-- Witness for C1: in a two-level tree the nested list observes depth 1,
its nesting level. -/
theorem depth_equals_nesting_level_witness :
    ((1, 1) : Nat × Nat) ∈
        listDepthPairs 0
          (renderNode .undef rootCtx
            (.list (.cons (.item (.cons (.list .nil) .nil)) .nil))) ∧
      ((1, 1) : Nat × Nat).2 = ((1, 1) : Nat × Nat).1 :=
  ⟨by decide,
    depth_equals_nesting_level .undef
      (.list (.cons (.item (.cons (.list .nil) .nil)) .nil)) (1, 1) (by decide)⟩

/-- The marker a rendered node observed, when it is an item. -/
def itemMarkerOf : RNode → Option String
  | .item m _ => some m
  | .list _ _ _ => none
  | .plain _ => none

/-- Pair every direct item of a rendered sibling sequence with the depth
`d` of the list that contains them. -/
def directItemPairs (d : Nat) : RNodeList → List (Nat × String)
  | .nil => []
  | .cons c cs =>
      (match itemMarkerOf c with
        | some m => [(d, m)]
        | none => []) ++ directItemPairs d cs

mutual

/-- Collect, from a rendered tree, one pair per item that sits directly
inside a list: the ambient depth that list observed, and the marker the
item observed. -/
def itemDepthMarkerPairs : RNode → List (Nat × String)
  | .item _ cs => itemDepthMarkerPairsList cs
  | .list d _ cs => directItemPairs d cs ++ itemDepthMarkerPairsList cs
  | .plain cs => itemDepthMarkerPairsList cs

/-- Collect depth/marker pairs from rendered siblings. -/
def itemDepthMarkerPairsList : RNodeList → List (Nat × String)
  | .nil => []
  | .cons c cs => itemDepthMarkerPairs c ++ itemDepthMarkerPairsList cs

end

theorem directItemPairs_renderNodes (cfg : MarkerConfig) (ctx : Ctx) (d : Nat) :
    ∀ (cs : NodeList), ∀ p ∈ directItemPairs d (renderNodes cfg ctx cs),
      p = (d, ctx.marker)
  | .nil => by simp [renderNodes, directItemPairs]
  | .cons n ns => by
      intro p hp
      simp only [renderNodes, directItemPairs, List.mem_append] at hp
      rcases hp with h | h
      · cases n <;> simp_all [renderNode, itemMarkerOf]
      · exact directItemPairs_renderNodes cfg ctx d ns p h

mutual

theorem itemDepthMarkerPairs_resolve (cfg : MarkerConfig) (ctx : Ctx) :
    ∀ (t : Node), ∀ p ∈ itemDepthMarkerPairs (renderNode cfg ctx t),
      p.2 = resolveMarkerDefault p.1 cfg
  | .item cs => by
      simpa [renderNode, itemDepthMarkerPairs] using
        itemDepthMarkerPairsList_resolve cfg ctx cs
  | .list cs => by
      intro p hp
      simp only [renderNode, itemDepthMarkerPairs, List.mem_append] at hp
      rcases hp with h | h
      · have := directItemPairs_renderNodes cfg
          { depth := ctx.depth + 1, marker := resolveMarkerDefault ctx.depth cfg }
          ctx.depth cs p h
        subst this
        rfl
      · exact itemDepthMarkerPairsList_resolve cfg
          { depth := ctx.depth + 1, marker := resolveMarkerDefault ctx.depth cfg }
          cs p h
  | .plain cs => by
      simpa [renderNode, itemDepthMarkerPairs] using
        itemDepthMarkerPairsList_resolve cfg ctx cs

theorem itemDepthMarkerPairsList_resolve (cfg : MarkerConfig) (ctx : Ctx) :
    ∀ (ts : NodeList), ∀ p ∈ itemDepthMarkerPairsList (renderNodes cfg ctx ts),
      p.2 = resolveMarkerDefault p.1 cfg
  | .nil => by simp [renderNodes, itemDepthMarkerPairsList]
  | .cons t ts => by
      intro p hp
      simp only [renderNodes, itemDepthMarkerPairsList, List.mem_append] at hp
      rcases hp with h | h
      · exact itemDepthMarkerPairs_resolve cfg ctx t p h
      · exact itemDepthMarkerPairsList_resolve cfg ctx ts p h

end

/-- Claim C2: in every render tree, every item sitting directly inside a
list that observed ambient depth `d` observes the marker resolved at `d`
— the depth the list inherited — not at the incremented depth `d + 1`
the list establishes for its subtree. -/
theorem broadcast_uses_preincrement_depth (cfg : MarkerConfig) (ctx : Ctx)
    (t : Node) :
    ∀ p ∈ itemDepthMarkerPairs (renderNode cfg ctx t),
      p.2 = resolveMarkerDefault p.1 cfg :=
  itemDepthMarkerPairs_resolve cfg ctx t

/-- Witness for C2: with configuration `["A", "B"]`, the item of the
nested list observes `"B"`, the marker resolved at the inherited depth 1
(had the nested list resolved at its post-increment depth 2, the item
would still see `"B"` only through saturation; the root items observe
`"A"`, resolved at inherited depth 0, not `"B"` at depth 1). -/
theorem broadcast_uses_preincrement_depth_witness :
    ((0, "A") : Nat × String) ∈
        itemDepthMarkerPairs
          (renderNode (.arr ["A", "B"]) rootCtx
            (.list (.cons
              (.item (.cons (.list (.cons (.item .nil) .nil)) .nil)) .nil))) ∧
      ((0, "A") : Nat × String).2 = resolveMarkerDefault 0 (.arr ["A", "B"]) :=
  ⟨by decide,
    broadcast_uses_preincrement_depth (.arr ["A", "B"]) rootCtx
      (.list (.cons (.item (.cons (.list (.cons (.item .nil) .nil)) .nil)) .nil))
      (0, "A") (by decide)⟩

/-- The rendered children of a rendered node. -/
def renderedChildren : RNode → RNodeList
  | .item _ cs => cs
  | .list _ _ cs => cs
  | .plain cs => cs

/-- The markers observed by a rendered sibling sequence, position by
position: `some` the observed marker for an item, `none` for any other
node. -/
def observedMarkers : RNodeList → List (Option String)
  | .nil => []
  | .cons c cs => itemMarkerOf c :: observedMarkers cs

/-- What a direct child should observe when the broadcast marker is `m`:
`some m` if the child is an item, `none` otherwise. This depends only on
the head constructor of the child, never on its own subtree. -/
def nodeItemTag (m : String) : Node → Option String
  | .item _ => some m
  | .list _ => none
  | .plain _ => none

/-- The expected observed markers of a sibling sequence under broadcast
marker `m`. -/
def expectedMarkers (m : String) : NodeList → List (Option String)
  | .nil => []
  | .cons c cs => nodeItemTag m c :: expectedMarkers m cs

theorem observedMarkers_renderNodes (cfg : MarkerConfig) (ctx : Ctx) :
    ∀ (cs : NodeList),
      observedMarkers (renderNodes cfg ctx cs) = expectedMarkers ctx.marker cs
  | .nil => rfl
  | .cons n ns => by
      have hn : itemMarkerOf (renderNode cfg ctx n) = nodeItemTag ctx.marker n := by
        cases n <;> rfl
      simp [renderNodes, observedMarkers, expectedMarkers, hn,
        observedMarkers_renderNodes cfg ctx ns]

theorem expectedMarkers_append (m : String) :
    ∀ (xs ys : NodeList),
      expectedMarkers m (xs.append ys) = expectedMarkers m xs ++ expectedMarkers m ys
  | .nil, ys => rfl
  | .cons x xs, ys => by
      simp [NodeList.append, expectedMarkers, expectedMarkers_append m xs ys]

/-- Claim C7: a list that observed ambient depth `d` broadcasts the
marker resolved at `d` to exactly its direct item children, position by
position; the markers observed at the positions of `xs` and `ys` are the
same expression whether the middle sibling is `a` or `b`, so replacing a
sibling subtree — in particular by one containing a nested list that
resolves its own marker at depth `d + 1` — never alters the marker
observed by the uncle items back at depth `d`. -/
theorem marker_broadcast_isolation (cfg : MarkerConfig) (ctx : Ctx)
    (xs ys : NodeList) (a b : Node) :
    observedMarkers (renderedChildren
        (renderNode cfg ctx (.list (xs.append (.cons a ys)))))
      = expectedMarkers (resolveMarkerDefault ctx.depth cfg) xs
          ++ nodeItemTag (resolveMarkerDefault ctx.depth cfg) a
            :: expectedMarkers (resolveMarkerDefault ctx.depth cfg) ys ∧
    observedMarkers (renderedChildren
        (renderNode cfg ctx (.list (xs.append (.cons b ys)))))
      = expectedMarkers (resolveMarkerDefault ctx.depth cfg) xs
          ++ nodeItemTag (resolveMarkerDefault ctx.depth cfg) b
            :: expectedMarkers (resolveMarkerDefault ctx.depth cfg) ys := by
  constructor <;>
    simp [renderNode, renderedChildren, observedMarkers_renderNodes,
      expectedMarkers_append, expectedMarkers]

/-- Claim C9: an item rendered with no enclosing list observes the
process-wide default marker, because the default value of the marker
context is the default-marker constant. -/
theorem standalone_item_defaults (cfg : MarkerConfig) (cs : NodeList) :
    itemMarkerOf (renderNode cfg rootCtx (.item cs)) = some defaultMarker := by
  simp [renderNode, itemMarkerOf, rootCtx]
